import Mathlib

/-!
Verification of the resilient remote archive acquisition and extraction
engine (`downloader.py`): a shallow embedding of the response classifier,
the interstitial URL extractor, the bounded multi-hop download
orchestrator, the archive validator, the extraction engine and the
dataset-directory materializer, together with theorems settling the
specified properties.

Bytes are modeled as `Char`s whose code points are the byte values (the
source decodes response bodies with `errors="ignore"` and all decision
logic is over ASCII-range data).  The two preprocessing decodings in
`_extract_download_url_from_html` (`html.unescape` and unicode-escape
decoding) are modeled as already applied: the extractor takes the decoded
page text, and all statements quantify over decoded pages.
-/

namespace GDD

/-! ## Character and string helpers -/

/-- The double-quote character. -/
def quoteCh : Char := Char.ofNat 34

/-- The single-quote (apostrophe) character. -/
def aposCh : Char := Char.ofNat 39

/-- ASCII lower-casing of one character, as Python `str.lower` acts on
the ASCII header values involved. -/
def asciiLower (c : Char) : Char :=
  if 'A' ≤ c ∧ c ≤ 'Z' then Char.ofNat (c.toNat + 32) else c

/-- ASCII lower-casing of a string. -/
def lowerStr (s : String) : String := String.mk (s.data.map asciiLower)

/-- Substring scan: does `needle` occur starting at some position of the
list? -/
def containsSubAux (needle : List Char) : List Char → Bool
  | [] => needle.isEmpty
  | c :: t => needle.isPrefixOf (c :: t) || containsSubAux needle t

/-- Python `needle in hay` substring containment. -/
def containsSub (needle hay : String) : Bool := containsSubAux needle.data hay.data

/-- Python `s.startswith(p)`. -/
def strStartsWith (p s : String) : Bool := p.data.isPrefixOf s.data

/-! ## Response classifier (`_is_zip_response`, downloader.py lines 39-49) -/

/-- The zip magic signature `PK\x03\x04` as the first four bytes. -/
def magicPK : List Char := ['P', 'K', Char.ofNat 3, Char.ofNat 4]

/-- `_is_zip_response(content_type, content_disp, first_bytes)`:
magic bytes first, then `application/zip` content type, then
octet-stream + attachment disposition; otherwise not a zip (HTML). -/
def isZipResponse (contentType contentDisp : Option String)
    (firstBytes : List Char) : Bool :=
  let ct := lowerStr (contentType.getD "")
  let cd := lowerStr (contentDisp.getD "")
  if magicPK.isPrefixOf firstBytes then true
  else if containsSub "application/zip" ct then true
  else if containsSub "application/octet-stream" ct && containsSub "attachment" cd then true
  else false

/-! ## Regex scanning primitives

The extractor's regexes are implemented as explicit scanners over
`List Char` with Python `re.search` semantics: leftmost starting
position wins, greedy quantifiers backtrack from the longest run. -/

/-- Match a literal; on success return the remainder. -/
def matchLit : List Char → List Char → Option (List Char)
  | [], rest => some rest
  | _ :: _, [] => none
  | c :: cs, d :: rest => if c = d then matchLit cs rest else none

/-- `([^"]+)"`: a nonempty run of non-quote characters followed by a
closing quote; returns the captured run and the remainder after the
closing quote. -/
def captureQuote1 (l : List Char) : Option (List Char × List Char) :=
  let cap := l.takeWhile (fun c => c != quoteCh)
  if cap.isEmpty then none
  else
    match l.drop cap.length with
    | c :: rest => if c = quoteCh then some (cap, rest) else none
    | [] => none

/-- `([^"]*)"`: a possibly empty run of non-quote characters followed by
a closing quote. -/
def captureQuote0 (l : List Char) : Option (List Char × List Char) :=
  let cap := l.takeWhile (fun c => c != quoteCh)
  match l.drop cap.length with
  | c :: rest => if c = quoteCh then some (cap, rest) else none
  | [] => none

/-- `re.search`: try the matcher at each position from the left; first
success wins (the empty suffix is also a position). -/
def reSearch {α : Type} (m : List Char → Option α) : List Char → Option α
  | [] => m []
  | c :: t =>
    match m (c :: t) with
    | some a => some a
    | none => reSearch m t

/-! ## Form matcher: `<form[^>]+action="([^"]+)"` -/

/-- After `<form`, the greedy `[^>]+` tries offsets from the longest
non-`>` run down to one character, looking for `action="` and a quoted
nonempty capture there. -/
def formGo (rest : List Char) : Nat → Option (List Char)
  | 0 => none
  | k + 1 =>
    match matchLit "action=\"".data (rest.drop (k + 1)) with
    | some rem =>
      match captureQuote1 rem with
      | some (cap, _) => some cap
      | none => formGo rest k
    | none => formGo rest k

/-- Try the form regex at one position; returns the captured action. -/
def matchFormAt (l : List Char) : Option (List Char) :=
  match matchLit "<form".data l with
  | none => none
  | some rest => formGo rest (rest.takeWhile (fun c => c != '>')).length

/-- `re.search(r'<form[^>]+action="([^"]+)"', s)`. -/
def searchFormAction : List Char → Option (List Char) := reSearch matchFormAt

/-! ## Input matcher: `<input[^>]+name="([^"]+)"[^>]+value="([^"]*)"` -/

/-- The second greedy `[^>]+` before `value="`. -/
def inputGo2 (after1 : List Char) : Nat → Option (List Char × List Char)
  | 0 => none
  | k + 1 =>
    match matchLit "value=\"".data (after1.drop (k + 1)) with
    | some rem2 =>
      match captureQuote0 rem2 with
      | some (v, after2) => some (v, after2)
      | none => inputGo2 after1 k
    | none => inputGo2 after1 k

/-- The first greedy `[^>]+` before `name="`; on capturing the name,
continue with the value part, backtracking on failure. -/
def inputGo1 (rest : List Char) : Nat → Option ((List Char × List Char) × List Char)
  | 0 => none
  | k + 1 =>
    match matchLit "name=\"".data (rest.drop (k + 1)) with
    | some rem1 =>
      match captureQuote1 rem1 with
      | some (nm, after1) =>
        match inputGo2 after1 (after1.takeWhile (fun c => c != '>')).length with
        | some (v, after2) => some ((nm, v), after2)
        | none => inputGo1 rest k
      | none => inputGo1 rest k
    | none => inputGo1 rest k

/-- Try the input regex at one position; returns `((name, value), rest)`
where `rest` follows the whole match. -/
def matchInputAt (l : List Char) : Option ((List Char × List Char) × List Char) :=
  match matchLit "<input".data l with
  | none => none
  | some rest => inputGo1 rest (rest.takeWhile (fun c => c != '>')).length

/-- `re.findall`: non-overlapping left-to-right matches.  The fuel is the
input length; every successful match consumes at least one character, so
the fuel never runs out before the scan ends. -/
def findInputsAux : Nat → List Char → List (List Char × List Char)
  | 0, _ => []
  | _, [] => []
  | fuel + 1, c :: t =>
    match matchInputAt (c :: t) with
    | some (nv, after) => nv :: findInputsAux fuel after
    | none => findInputsAux fuel t

/-- All `(name, value)` pairs of `<input>` elements found in the page. -/
def findInputs (s : String) : List (String × String) :=
  (findInputsAux s.data.length s.data).map (fun p => (String.mk p.1, String.mk p.2))

/-! ## Direct-link patterns (downloader.py lines 72-86) -/

/-- `[^"']+`: run of characters that are neither quote kind. -/
def takeUrlChars (l : List Char) : List Char :=
  l.takeWhile (fun c => c != quoteCh && c != aposCh)

/-- `href="(/uc\?export=download[^"]+)"` at one position. -/
def matchPat1 (l : List Char) : Option (List Char) :=
  match matchLit "href=\"/uc?export=download".data l with
  | none => none
  | some rem =>
    match captureQuote1 rem with
    | some (extra, _) => some ("/uc?export=download".data ++ extra)
    | none => none

/-- `(https://drive\.google\.com/uc\?export=download[^"']+)` at one position. -/
def matchPat2 (l : List Char) : Option (List Char) :=
  match matchLit "https://drive.google.com/uc?export=download".data l with
  | none => none
  | some rem =>
    let extra := takeUrlChars rem
    if extra.isEmpty then none
    else some ("https://drive.google.com/uc?export=download".data ++ extra)

/-- `(https://drive\.usercontent\.google\.com/download\?[^"']+)` at one position. -/
def matchPat3 (l : List Char) : Option (List Char) :=
  match matchLit "https://drive.usercontent.google.com/download?".data l with
  | none => none
  | some rem =>
    let extra := takeUrlChars rem
    if extra.isEmpty then none
    else some ("https://drive.usercontent.google.com/download?".data ++ extra)

/-- `(https://drive\.usercontent\.google\.com/uc\?[^"']+)` at one position. -/
def matchPat4 (l : List Char) : Option (List Char) :=
  match matchLit "https://drive.usercontent.google.com/uc?".data l with
  | none => none
  | some rem =>
    let extra := takeUrlChars rem
    if extra.isEmpty then none
    else some ("https://drive.usercontent.google.com/uc?".data ++ extra)

/-- The `patterns` loop: for each pattern in order, search the page; the
first matching pattern's first match wins. -/
def searchPats (l : List Char) : Option (List Char) :=
  match reSearch matchPat1 l with
  | some g => some g
  | none =>
    match reSearch matchPat2 l with
    | some g => some g
    | none =>
      match reSearch matchPat3 l with
      | some g => some g
      | none => reSearch matchPat4 l

/-! ## Bare confirm token: `confirm=([0-9A-Za-z_-]+)` -/

/-- A character of the confirm-token class `[0-9A-Za-z_-]`. -/
def isTokenChar (c : Char) : Bool := c.isAlpha || c.isDigit || c == '_' || c == '-'

/-- The confirm-token regex at one position. -/
def matchConfirmAt (l : List Char) : Option (List Char) :=
  match matchLit "confirm=".data l with
  | none => none
  | some rem =>
    let tok := rem.takeWhile isTokenChar
    if tok.isEmpty then none else some tok

/-- `re.search(r"confirm=([0-9A-Za-z_-]+)", s)`. -/
def searchConfirm : List Char → Option (List Char) := reSearch matchConfirmAt

/-! ## Python dict, `urlencode` and `str.replace("&amp;", "&")` -/

/-- One insertion into a Python dict kept as an association list:
an existing key keeps its position and takes the new value, a new key is
appended. -/
def dInsert (d : List (String × String)) (k v : String) : List (String × String) :=
  if d.any (fun p => p.1 == k) then
    d.map (fun p => if p.1 == k then (k, v) else p)
  else d ++ [(k, v)]

/-- `dict(pairs)`: fold the pairs left to right; a repeated key keeps
its first position and last value. -/
def dictOf (l : List (String × String)) : List (String × String) :=
  l.foldl (fun d p => dInsert d p.1 p.2) []

/-- Python dict lookup on the association list. -/
def dlookup (d : List (String × String)) (k : String) : Option String :=
  (d.find? (fun p => p.1 == k)).map Prod.snd

/-- `d.setdefault(k, v)`: append `(k, v)` only when `k` is absent. -/
def setdefaultD (d : List (String × String)) (k v : String) : List (String × String) :=
  if d.any (fun p => p.1 == k) then d else d ++ [(k, v)]

/-- UTF-8 encoding of one character (byte values). -/
def utf8Bytes (c : Char) : List Nat :=
  let n := c.toNat
  if n < 128 then [n]
  else if n < 2048 then [192 + n / 64, 128 + n % 64]
  else if n < 65536 then [224 + n / 4096, 128 + (n / 64) % 64, 128 + n % 64]
  else [240 + n / 262144, 128 + (n / 4096) % 64, 128 + (n / 64) % 64, 128 + n % 64]

/-- Upper-case hexadecimal digit. -/
def hexDigit (n : Nat) : Char :=
  if n < 10 then Char.ofNat (48 + n) else Char.ofNat (55 + n)

/-- `%XX` percent-encoding of one byte. -/
def pctByte (b : Nat) : List Char := ['%', hexDigit (b / 16), hexDigit (b % 16)]

/-- Characters `quote_plus` leaves unchanged: ASCII alphanumerics and
`_ . - ~` (the default `safe` set is empty). -/
def isSafeChar (c : Char) : Bool :=
  c.isAlpha || c.isDigit || c == '_' || c == '.' || c == '-' || c == '~'

/-- `urllib.parse.quote_plus` on one character. -/
def quotePlusChar (c : Char) : List Char :=
  if isSafeChar c then [c]
  else if c == ' ' then ['+']
  else (utf8Bytes c).foldr (fun b acc => pctByte b ++ acc) []

/-- `urllib.parse.quote_plus` on a string. -/
def quotePlus (s : String) : String := String.mk (s.data.flatMap quotePlusChar)

/-- `urllib.parse.urlencode` over the dict's `(key, value)` pairs in
insertion order. -/
def urlencode (ps : List (String × String)) : String :=
  String.intercalate "&" (ps.map (fun p => quotePlus p.1 ++ "=" ++ quotePlus p.2))

/-- `s.replace("&amp;", "&")`: left-to-right, non-overlapping. -/
def replaceAmpAux : List Char → List Char
  | '&' :: 'a' :: 'm' :: 'p' :: ';' :: rest => '&' :: replaceAmpAux rest
  | c :: rest => c :: replaceAmpAux rest
  | [] => []

/-! ## The interstitial URL extractor
(`_extract_download_url_from_html`, downloader.py lines 52-94) -/

/-- The fixed enumeration of recognized form parameters. -/
def recognizedKeys : List String := ["id", "export", "confirm", "uuid"]

/-- The params dict built in the form branch: all page inputs as a dict,
`id` defaulted to the file id, restricted to the recognized keys in
their fixed order. -/
def formParams (inputs : List (String × String)) (fid : String) :
    List (String × String) :=
  let d := setdefaultD (dictOf inputs) "id" fid
  recognizedKeys.filterMap (fun k => (dlookup d k).map (fun v => (k, v)))

/-- Normalization applied to a direct-link pattern match: unescape
`&amp;` and resolve a root-relative path against the drive origin. -/
def normalizePat (g : List Char) : String :=
  let url := replaceAmpAux g
  match url with
  | '/' :: rest => String.mk ("https://drive.google.com".data ++ ('/' :: rest))
  | l => String.mk l

/-- `_extract_download_url_from_html(page, file_id)` on the decoded page
text: form branch, then the four direct-link patterns, then the bare
confirm token, else no URL. -/
def extractDownloadUrlFromHtml (s : String) (fid : String) : Option String :=
  let formRes : Option String :=
    match searchFormAction s.data with
    | none => none
    | some actionRaw =>
      let action := String.mk (replaceAmpAux actionRaw)
      let params := formParams (findInputs s) fid
      if !params.isEmpty && strStartsWith "http" action then
        some (action ++ "?" ++ urlencode params)
      else none
  match formRes with
  | some u => some u
  | none =>
    match searchPats s.data with
    | some g => some (normalizePat g)
    | none =>
      match searchConfirm s.data with
      | some tok =>
        some ("https://drive.google.com/uc?export=download&confirm="
              ++ String.mk tok ++ "&id=" ++ fid)
      | none => none

/-! ## Zip archives
(`zipfile.ZipFile`, `testzip`, `extractall` as used by downloader.py) -/

/-- One archive member: its path split into components, and whether its
stored CRC matches its data (`crcOk = false` models a corrupted member). -/
structure ZipEntry where
  path : List String
  crcOk : Bool
deriving DecidableEq

/-- A zip file that `zipfile.ZipFile` can open (an unopenable file is
modeled as `Option.none` at the use sites). -/
structure ZipFile where
  entries : List ZipEntry
deriving DecidableEq

/-- The base name of a member (`f.name`). -/
def entryName (e : ZipEntry) : String := e.path.getLastD ""

/-- `zf.testzip()`: the name of the first member whose CRC check fails,
or `none` when the archive passes its structural self-test. -/
def zipTestzip (zf : ZipFile) : Option String :=
  (zf.entries.find? (fun e => !e.crcOk)).map entryName

/-! ## Session transport and responses

One acquisition attempt issues up to three requests, consuming the
server's responses in order; the oracle `Nat → NetResult` gives the
response to the n-th request (`err` models `opener.open` raising a
network-level exception). -/

/-- One HTTP response: its headers, its raw body (bytes as characters),
and what `zipfile.ZipFile` yields on those same bytes once saved
(`none` = `BadZipFile`). -/
structure Response where
  contentType : Option String
  contentDisp : Option String
  body : String
  asZip : Option ZipFile
deriving DecidableEq

/-- Outcome of one `open_url` call. -/
inductive NetResult
  | err
  | ok (r : Response)
deriving DecidableEq

/-- The run's error kinds, one per `raise` site reachable from
`ensure_dataset`. -/
inductive RunError
  /-- `urllib` network failure propagating out of `opener.open`. -/
  | transport
  /-- "Failed to obtain Google Drive download URL/confirm token." -/
  | noDownloadUrl
  /-- "Download still returned HTML (not a zip)." -/
  | stillHtml
  /-- "Downloaded file is not a valid zip." -/
  | notValidZip
  /-- `BadZipFile` raised inside `_extract_csvs`, either by
  `zipfile.ZipFile` on an unopenable file or by `extractall` on a
  corrupted member; it propagates uncaught. -/
  | badZipExtract
  /-- "No CSV files found after extraction." -/
  | noCsvFound
deriving DecidableEq

/-- Result of the download phase: on success the zip interpretation of
the bytes written to `out_zip`, plus the number of requests issued and
whether the function returned early from the hop-1 binary branch
(line 120's `return`), which skips the validation block entirely. -/
structure DlOutcome where
  result : Except RunError (Option ZipFile)
  requests : Nat
  earlyReturn : Bool

/-! ## The acquisition orchestrator
(`_download_gdrive_zip`, downloader.py lines 97-152) -/

/-- Classify one response from its headers and the first four body
bytes, as the source does per hop. -/
def classifiesZip (r : Response) : Bool :=
  isZipResponse r.contentType r.contentDisp (r.body.data.take 4)

/-- The hop structure of `_download_gdrive_zip` before validation:
initial request; if HTML, extract a follow-up URL and request it; if the
first follow-up is again HTML, extract once more and request a second
follow-up whose body is saved without classification.  Every path
records how many requests were issued. -/
def downloadGdriveZip (fid : String) (server : Nat → NetResult) : DlOutcome :=
  match server 0 with
  | .err => ⟨.error .transport, 1, false⟩
  | .ok r0 =>
    if classifiesZip r0 then
      ⟨.ok r0.asZip, 1, true⟩
    else
      match extractDownloadUrlFromHtml r0.body fid with
      | none => ⟨.error .noDownloadUrl, 1, false⟩
      | some _url1 =>
        match server 1 with
        | .err => ⟨.error .transport, 2, false⟩
        | .ok r1 =>
          if classifiesZip r1 then
            ⟨.ok r1.asZip, 2, false⟩
          else
            match extractDownloadUrlFromHtml r1.body fid with
            | none => ⟨.error .stillHtml, 2, false⟩
            | some _url2 =>
              match server 2 with
              | .err => ⟨.error .transport, 3, false⟩
              | .ok r2 => ⟨.ok r2.asZip, 3, false⟩

/-- The validation block at the end of `_download_gdrive_zip`: opening
the saved file as a zip raises `BadZipFile` when it is not one; the
value returned by `zf.testzip()` is computed and then discarded by the
source.  The hop-1 binary branch returns before this block runs. -/
def validateZip (saved : Option ZipFile) : Except RunError Unit :=
  match saved with
  | none => .error .notValidZip
  | some zf =>
    let _selfTest := zipTestzip zf
    .ok ()

/-- The whole of `_download_gdrive_zip`: the hop structure followed by
the validation block, which the hop-1 early return skips. -/
def downloadAndValidate (fid : String) (server : Nat → NetResult) :
    Except RunError (Option ZipFile) × Nat :=
  let o := downloadGdriveZip fid server
  match o.result with
  | .error e => (.error e, o.requests)
  | .ok saved =>
    if o.earlyReturn then (.ok saved, o.requests)
    else
      match validateZip saved with
      | .error e => (.error e, o.requests)
      | .ok _ => (.ok saved, o.requests)

/-- The zip interpretation of the bytes the download phase saved, when
it succeeded. -/
def downloadedZip (fid : String) (server : Nat → NetResult) : Option ZipFile :=
  match (downloadGdriveZip fid server).result with
  | .ok saved => saved
  | .error _ => none

/-! ## The extraction engine
(`_extract_csvs`, downloader.py lines 155-178) -/

/-- Does the member live strictly under a top-level `dataset` directory?
Such a member makes `(tmp_dir / "dataset").is_dir()` true after
`extractall`. -/
def underDataset (e : ZipEntry) : Bool :=
  match e.path with
  | "dataset" :: _ :: _ => true
  | _ => false

/-- Does the extracted tree contain a top-level `dataset` directory? -/
def datasetDirInZip (entries : List ZipEntry) : Bool := entries.any underDataset

/-- `*.csv` name match of `Path.rglob("*.csv")`. -/
def isCsvEntry (e : ZipEntry) : Bool := ".csv".data.isSuffixOf (entryName e).data

/-- The two-tier search of `_extract_csvs`: recurse under the top-level
`dataset` directory when it exists, otherwise from the scratch root; if
that yields nothing, fall back to the scratch root. -/
def csvFiles (entries : List ZipEntry) : List ZipEntry :=
  let fromRoot :=
    if datasetDirInZip entries then
      entries.filter (fun e => underDataset e && isCsvEntry e)
    else entries.filter isCsvEntry
  if fromRoot.isEmpty then entries.filter isCsvEntry else fromRoot

/-- Outcome of `_extract_csvs`: on success the base names copied into
the destination directory, in search order (a later duplicate name
overwrites an earlier copy of the same name on disk); `scratchAfter`
records whether the scratch directory still exists after the call — the
`finally` clause removes it on every path. -/
structure ExtractOut where
  result : Except RunError (List String)
  scratchAfter : Bool

/-- `_extract_csvs(zip_path, dest_dir)`: unpack everything into a fresh
scratch directory (`extractall` raises on the first corrupted member),
search with the two-tier rule, fail when nothing matches, otherwise
recreate the destination directory and copy each match by base name.
The scratch directory is removed in a `finally` block on every path. -/
def extractCsvs (saved : Option ZipFile) : ExtractOut :=
  let body : Except RunError (List String) :=
    match saved with
    | none => .error .badZipExtract
    | some zf =>
      if zf.entries.any (fun e => !e.crcOk) then .error .badZipExtract
      else
        let csvs := csvFiles zf.entries
        if csvs.isEmpty then .error .noCsvFound
        else .ok (csvs.map entryName)
  { result := body, scratchAfter := false }

/-! ## `ensure_dataset` (downloader.py lines 181-213) -/

/-- The caller-visible initial filesystem state and options:
the pre-existing destination directory contents (`none` = absent), the
pre-existing `dataset.zip`, and the `keep_zip` flag. -/
structure Config where
  destPre : Option (List String)
  archivePre : Bool
  keepZip : Bool
deriving DecidableEq

/-- Observable filesystem events of one run, in order. -/
inductive Ev
  /-- `shutil.rmtree(dataset_dir)` on the pre-existing destination. -/
  | removeDest
  /-- one `opener.open` request. -/
  | request
  /-- `zf.extractall(tmp_dir)` begins. -/
  | extract
deriving DecidableEq

/-- The observable outcome of one `ensure_dataset` run. -/
structure RunOut where
  result : Except RunError Unit
  dest : Option (List String)
  archive : Bool
  scratch : Bool
  trace : List Ev

/-- `ensure_dataset(base_dir, "dataset", file_id, keep_zip)`:
wipe a pre-existing destination directory, delete a stale archive unless
kept, download and validate, extract, then delete the archive unless
kept.  An exception anywhere propagates, leaving the state of that
moment. -/
def ensureDataset (fid : String) (cfg : Config) (server : Nat → NetResult) :
    RunOut :=
  let destEvs : List Ev := if cfg.destPre.isSome then [Ev.removeDest] else []
  let archive0 := cfg.archivePre && cfg.keepZip
  let o := downloadGdriveZip fid server
  let evs := destEvs ++ List.replicate o.requests Ev.request
  match o.result with
  | .error e => ⟨.error e, none, archive0, false, evs⟩
  | .ok saved =>
    match if o.earlyReturn then .ok () else validateZip saved with
    | .error e => ⟨.error e, none, true, false, evs⟩
    | .ok _ =>
      let ex := extractCsvs saved
      let evs := evs ++ [Ev.extract]
      match ex.result with
      | .error e => ⟨.error e, none, true, ex.scratchAfter, evs⟩
      | .ok names => ⟨.ok (), some names, cfg.keepZip, ex.scratchAfter, evs⟩

/-! ## Concrete scenarios used in examples and witnesses -/

/-- An interstitial HTML page carrying only a bare confirm token; it is
not classified as a zip and its bytes are not an openable zip. -/
def interResp : Response :=
  { contentType := none, contentDisp := none, body := "confirm=abc", asZip := none }

/-- A server answering every hop with the interstitial page. -/
def interServer : Nat → NetResult := fun _ => .ok interResp

/-- A direct binary response carrying the given archive. -/
def zipResponse (z : ZipFile) : Response :=
  { contentType := some "application/zip", contentDisp := none, body := "", asZip := some z }

/-- An archive that opens fine but whose member `dataset/b.csv` fails
its CRC check. -/
def corruptZip : ZipFile :=
  ⟨[⟨["dataset", "a.csv"], true⟩, ⟨["dataset", "b.csv"], false⟩]⟩

/-- A server serving an interstitial first and the corrupted archive on
the follow-up hop, so the validation block actually runs. -/
def corruptServer : Nat → NetResult :=
  fun n => match n with
  | 0 => .ok interResp
  | _ => .ok (zipResponse corruptZip)

/-- A response whose headers claim an attachment byte stream (so the
classifier answers Binary) but whose bytes are not an openable zip. -/
def fakeZipResponse : Response :=
  { contentType := some "application/octet-stream"
    contentDisp := some "attachment; filename=x"
    body := "nope", asZip := none }

/-- A server serving the fake binary response on the first hop. -/
def fakeZipServer : Nat → NetResult := fun _ => .ok fakeZipResponse

/-- A valid archive containing no CSV member at all. -/
def noCsvZip : ZipFile := ⟨[⟨["readme.txt"], true⟩]⟩

/-- A server serving the CSV-less archive on the first hop. -/
def noCsvServer : Nat → NetResult := fun _ => .ok (zipResponse noCsvZip)

/-- The specification's example archive:
`dataset/a.csv`, `dataset/b.csv` and `readme.txt`, all intact. -/
def okZip : ZipFile :=
  ⟨[⟨["dataset", "a.csv"], true⟩, ⟨["dataset", "b.csv"], true⟩, ⟨["readme.txt"], true⟩]⟩

/-- A server serving the example archive on the first hop. -/
def okServer : Nat → NetResult := fun _ => .ok (zipResponse okZip)

/-- A server whose every `open_url` raises a network error. -/
def failServer : Nat → NetResult := fun _ => .err

/-- An interstitial page with a well-formed form: an absolute action URL
and one hidden `confirm` input. -/
def formPage : String :=
  "<form q action=\"https://d/x\"><input q name=\"confirm\" q value=\"t\">"

/-! ## Theorems -/

/-- After a successful save, the validation step succeeds both on the
hop-1 early-return path (where it is skipped) and on an openable
archive (where `testzip`'s verdict is discarded). -/
theorem validate_after_ok (er : Bool) (zf : ZipFile) :
    (if er = true then Except.ok () else validateZip (some zf)) = Except.ok () := by
  cases er <;> simp [validateZip]

/-- Claim C1: for every acquisition attempt and every possible sequence
of server responses, the orchestrator issues at most three HTTP requests
in total (one initial request plus at most two follow-up hops); the
negotiation never loops beyond this bound. -/
theorem download_hop_bound (fid : String) (server : Nat → NetResult) :
    (downloadGdriveZip fid server).requests ≤ 3 := by
  unfold downloadGdriveZip
  cases server 0 with
  | err => simp
  | ok r0 =>
    by_cases h0 : classifiesZip r0 = true
    · simp [h0]
    · rw [Bool.not_eq_true] at h0
      simp only [h0, Bool.false_eq_true, if_false]
      cases extractDownloadUrlFromHtml r0.body fid with
      | none => simp
      | some u1 =>
        cases server 1 with
        | err => simp
        | ok r1 =>
          by_cases h1 : classifiesZip r1 = true
          · simp [h1]
          · rw [Bool.not_eq_true] at h1
            simp only [h1, Bool.false_eq_true, if_false]
            cases extractDownloadUrlFromHtml r1.body fid with
            | none => simp
            | some u2 =>
              cases server 2 with
              | err => simp
              | ok r2 => simp

/-- Claim C8: whenever the first four body bytes equal the zip magic
signature `PK\x03\x04`, the response classifier answers Binary (`true`),
whatever the `Content-Type` and `Content-Disposition` headers say. -/
theorem magic_wins (contentType contentDisp : Option String) (firstBytes : List Char)
    (h : magicPK.isPrefixOf firstBytes = true) :
    isZipResponse contentType contentDisp firstBytes = true := by
  unfold isZipResponse
  simp [h]

/-- Witness for C8: a response whose headers claim inline HTML but whose
body starts with the magic signature is classified Binary. -/
theorem magic_wins_witness :
    magicPK.isPrefixOf ('P' :: 'K' :: Char.ofNat 3 :: Char.ofNat 4 :: ['j']) = true
    ∧ isZipResponse (some "text/html") (some "inline")
        ('P' :: 'K' :: Char.ofNat 3 :: Char.ofNat 4 :: ['j']) = true :=
  ⟨by decide, magic_wins (some "text/html") (some "inline") _ (by decide)⟩

/-- Claim C9: on a page where the form search and all four direct-link
patterns fail but a bare `confirm=<token>` fragment is found, the
extractor returns exactly the canonical URL
`https://drive.google.com/uc?export=download&confirm=<token>&id=<fid>`. -/
theorem bare_confirm (s fid : String) (tok : List Char)
    (hform : searchFormAction s.data = none)
    (hp1 : reSearch matchPat1 s.data = none)
    (hp2 : reSearch matchPat2 s.data = none)
    (hp3 : reSearch matchPat3 s.data = none)
    (hp4 : reSearch matchPat4 s.data = none)
    (hconf : searchConfirm s.data = some tok) :
    extractDownloadUrlFromHtml s fid
      = some ("https://drive.google.com/uc?export=download&confirm="
              ++ String.mk tok ++ "&id=" ++ fid) := by
  unfold extractDownloadUrlFromHtml searchPats
  rw [hform, hp1, hp2, hp3, hp4, hconf]

/-- Witness for C9: a page holding only `confirm=t0k` yields the
canonical URL built from the token and the supplied resource id. -/
theorem bare_confirm_witness :
    extractDownloadUrlFromHtml "x confirm=t0k abc" "FID9"
      = some "https://drive.google.com/uc?export=download&confirm=t0k&id=FID9" :=
  bare_confirm "x confirm=t0k abc" "FID9" ['t', '0', 'k'] rfl rfl rfl rfl rfl rfl

/-- Claim C2 counterexample: when the second follow-up hop also answers
with an interstitial HTML page, the run does not fail with the
"interstitial did not resolve" error claimed — the source writes the
second follow-up's body to disk without classifying it, and the run
fails at validation with the "not a valid zip" error instead. -/
theorem second_followup_html_cex :
    (downloadAndValidate "fid" interServer).1 = Except.error RunError.notValidZip
    ∧ RunError.notValidZip ≠ RunError.stillHtml :=
  ⟨rfl, by decide⟩

/-- Claim C2 amended: when the initial response and the first follow-up
response are both classified HTML and each yields a follow-up URL, the
second follow-up's response is saved without classification after
exactly three requests and no further hops; if those saved bytes are not
an openable zip (as with an HTML page), the run fails at validation with
the "not a valid zip" error.  The "interstitial did not resolve" error
arises instead when the first follow-up's response is HTML and no
further URL can be extracted from it (see
`still_html_on_unextractable_first_followup`). -/
theorem second_followup_html_amended (fid : String) (server : Nat → NetResult)
    (r0 r1 r2 : Response) (u0 u1 : String)
    (h0 : server 0 = .ok r0) (hc0 : classifiesZip r0 = false)
    (hu0 : extractDownloadUrlFromHtml r0.body fid = some u0)
    (h1 : server 1 = .ok r1) (hc1 : classifiesZip r1 = false)
    (hu1 : extractDownloadUrlFromHtml r1.body fid = some u1)
    (h2 : server 2 = .ok r2) (hz : r2.asZip = none) :
    downloadAndValidate fid server = (Except.error RunError.notValidZip, 3) := by
  unfold downloadAndValidate downloadGdriveZip
  simp [h0, hc0, hu0, h1, hc1, hu1, h2, validateZip, hz]

/-- Witness for the amended C2: the all-interstitial server walks the
three hops and ends with the "not a valid zip" validation error. -/
theorem second_followup_html_amended_witness :
    downloadAndValidate "fid2" interServer = (Except.error RunError.notValidZip, 3) :=
  second_followup_html_amended "fid2" interServer interResp interResp interResp
    "https://drive.google.com/uc?export=download&confirm=abc&id=fid2"
    "https://drive.google.com/uc?export=download&confirm=abc&id=fid2"
    rfl rfl rfl rfl rfl rfl rfl rfl

/-- Companion fact for the amended C2: the source's "Download still
returned HTML (not a zip)" error is raised when the first follow-up
response is classified HTML and the extractor finds no URL in it. -/
theorem still_html_on_unextractable_first_followup (fid : String)
    (server : Nat → NetResult) (r0 r1 : Response) (u0 : String)
    (h0 : server 0 = .ok r0) (hc0 : classifiesZip r0 = false)
    (hu0 : extractDownloadUrlFromHtml r0.body fid = some u0)
    (h1 : server 1 = .ok r1) (hc1 : classifiesZip r1 = false)
    (hu1 : extractDownloadUrlFromHtml r1.body fid = none) :
    downloadAndValidate fid server = (Except.error RunError.stillHtml, 2) := by
  unfold downloadAndValidate downloadGdriveZip
  simp [h0, hc0, hu0, h1, hc1, hu1]

/-- Claim C3 (code bug): on the corrupted archive the structural
self-test fails (`testzip` reports member `b.csv`), yet the validator
accepts the file because the source discards `testzip`'s return value;
the run proceeds to extraction, which is attempted and fails there with
a bare `BadZipFile`, not with the "invalid archive" error the claim
requires before any extraction.  Moreover, when the first response is
already classified binary, the hop-1 early return skips the validation
block entirely, so even an unopenable file reaches extraction. -/
theorem testzip_ignored_bug :
    zipTestzip corruptZip = some "b.csv"
    ∧ validateZip (some corruptZip) = Except.ok ()
    ∧ (ensureDataset "f" ⟨none, false, false⟩ corruptServer).result
        = Except.error RunError.badZipExtract
    ∧ RunError.badZipExtract ≠ RunError.notValidZip
    ∧ Ev.extract ∈ (ensureDataset "f" ⟨none, false, false⟩ corruptServer).trace
    ∧ (ensureDataset "f" ⟨none, false, false⟩ fakeZipServer).result
        = Except.error RunError.badZipExtract
    ∧ Ev.extract ∈ (ensureDataset "f" ⟨none, false, false⟩ fakeZipServer).trace :=
  ⟨rfl, rfl, rfl, by decide, by decide, rfl, by decide⟩

/-- Claim C4 counterexample: with `keep_zip = false`, a run that fails
after the download (here: no matching files) terminates with the
archive file still on disk — its removal only happens after a
successful extraction, not on every code path. -/
theorem cleanup_archive_cex :
    (ensureDataset "f" ⟨none, false, false⟩ noCsvServer).result
        = Except.error RunError.noCsvFound
    ∧ (ensureDataset "f" ⟨none, false, false⟩ noCsvServer).archive = true :=
  ⟨rfl, rfl⟩

/-- Claim C4 amended: the scratch directory is removed on every code
path (a `finally` block), but the archive file, when the caller did not
opt to keep it, is removed only on the success path; a run failing
after the archive was written leaves it on disk (it is deleted again at
the start of the next run). -/
theorem cleanup_amended (fid : String) (cfg : Config) (server : Nat → NetResult) :
    (ensureDataset fid cfg server).scratch = false
    ∧ ((ensureDataset fid cfg server).result = Except.ok () → cfg.keepZip = false →
        (ensureDataset fid cfg server).archive = false) := by
  simp only [ensureDataset]
  cases hO : downloadGdriveZip fid server with
  | mk res reqs er =>
    dsimp only
    cases res with
    | error e => exact ⟨rfl, fun h => by simp at h⟩
    | ok saved =>
      cases saved with
      | none =>
        cases er <;>
          exact ⟨by simp [validateZip, extractCsvs],
                 fun h => by simp [validateZip, extractCsvs] at h⟩
      | some zf =>
        dsimp only
        rw [validate_after_ok er zf]
        by_cases hc : zf.entries.any (fun e => !e.crcOk) = true
        · exact ⟨by simp [extractCsvs, hc],
                 fun h => by simp [extractCsvs, hc] at h⟩
        · rw [Bool.not_eq_true] at hc
          by_cases hn : (csvFiles zf.entries).isEmpty = true
          · exact ⟨by simp [extractCsvs, hc, hn],
                   fun h => by simp [extractCsvs, hc, hn] at h⟩
          · rw [Bool.not_eq_true] at hn
            have hres : (extractCsvs (some zf)).result
                = Except.ok ((csvFiles zf.entries).map entryName) := by
              simp [extractCsvs, hc, hn]
            rw [hres]
            exact ⟨by simp [extractCsvs], fun _ hk => by simp [hk]⟩

/-- Witness for the amended C4: a successful run with `keep_zip = false`
ends with no scratch directory and no archive file. -/
theorem cleanup_amended_witness :
    (ensureDataset "f" ⟨some ["stale.csv"], true, false⟩ okServer).scratch = false
    ∧ (ensureDataset "f" ⟨some ["stale.csv"], true, false⟩ okServer).archive = false :=
  ⟨(cleanup_amended "f" ⟨some ["stale.csv"], true, false⟩ okServer).1,
   (cleanup_amended "f" ⟨some ["stale.csv"], true, false⟩ okServer).2 rfl rfl⟩

/-- Claim C5: after every successful run the destination directory
holds exactly the base names of the files matched by the two-tier
extension search on the downloaded archive, and nothing else. -/
theorem dest_exactly_matched (fid : String) (cfg : Config) (server : Nat → NetResult)
    (h : (ensureDataset fid cfg server).result = Except.ok ()) :
    ∃ zf names, downloadedZip fid server = some zf
      ∧ (ensureDataset fid cfg server).dest = some names
      ∧ names = (csvFiles zf.entries).map entryName
      ∧ (∀ n, n ∈ names ↔ ∃ e ∈ csvFiles zf.entries, entryName e = n) := by
  simp only [ensureDataset] at h ⊢
  unfold downloadedZip
  cases hO : downloadGdriveZip fid server with
  | mk res reqs er =>
    rw [hO] at h
    dsimp only at h ⊢
    cases res with
    | error e => simp at h
    | ok saved =>
      cases saved with
      | none => cases er <;> simp [validateZip, extractCsvs] at h
      | some zf =>
        dsimp only at h ⊢
        rw [validate_after_ok er zf] at h ⊢
        by_cases hc : zf.entries.any (fun e => !e.crcOk) = true
        · simp [extractCsvs, hc] at h
        · rw [Bool.not_eq_true] at hc
          by_cases hn : (csvFiles zf.entries).isEmpty = true
          · simp [extractCsvs, hc, hn] at h
          · rw [Bool.not_eq_true] at hn
            have hres : (extractCsvs (some zf)).result
                = Except.ok ((csvFiles zf.entries).map entryName) := by
              simp [extractCsvs, hc, hn]
            rw [hres]
            refine ⟨zf, (csvFiles zf.entries).map entryName, rfl, rfl, rfl, ?_⟩
            intro n
            simp [List.mem_map]

/-- Witness for C5, the specification's own example: the archive holding
`dataset/a.csv`, `dataset/b.csv` and `readme.txt` yields a destination
holding exactly `a.csv` and `b.csv`. -/
theorem dest_exactly_matched_witness :
    (∃ zf names, downloadedZip "f" okServer = some zf
      ∧ (ensureDataset "f" ⟨none, false, false⟩ okServer).dest = some names
      ∧ names = (csvFiles zf.entries).map entryName
      ∧ (∀ n, n ∈ names ↔ ∃ e ∈ csvFiles zf.entries, entryName e = n))
    ∧ (ensureDataset "f" ⟨none, false, false⟩ okServer).dest = some ["a.csv", "b.csv"] :=
  ⟨dest_exactly_matched "f" ⟨none, false, false⟩ okServer rfl, rfl⟩

/-- Claim C6: when the archive extracts cleanly but both search tiers
yield zero matching files, the run fails with the "no CSV files found
after extraction" error and the destination directory does not exist
(it is never repopulated), hence is not left partially populated. -/
theorem no_csv_error (fid : String) (cfg : Config) (server : Nat → NetResult)
    (zf : ZipFile)
    (hdl : (downloadGdriveZip fid server).result = Except.ok (some zf))
    (hcrc : zf.entries.any (fun e => !e.crcOk) = false)
    (hno : csvFiles zf.entries = []) :
    (ensureDataset fid cfg server).result = Except.error RunError.noCsvFound
    ∧ (ensureDataset fid cfg server).dest = none := by
  simp only [ensureDataset]
  cases hO : downloadGdriveZip fid server with
  | mk res reqs er =>
    rw [hO] at hdl
    dsimp only at hdl ⊢
    subst hdl
    dsimp only
    rw [validate_after_ok er zf]
    simp [extractCsvs, hcrc, hno]

/-- Witness for C6: the CSV-less archive makes the run fail with the
"no CSV files found" error and leaves no destination directory. -/
theorem no_csv_error_witness :
    (ensureDataset "f" ⟨none, false, false⟩ noCsvServer).result
        = Except.error RunError.noCsvFound
    ∧ (ensureDataset "f" ⟨none, false, false⟩ noCsvServer).dest = none :=
  no_csv_error "f" ⟨none, false, false⟩ noCsvServer noCsvZip rfl rfl rfl

/-- Claim C10: when the destination directory pre-exists, it is removed
at the very start of the run, before any network request; and every
failing run — transport error, unresolved interstitial, invalid
archive, or no matching files — ends with no destination directory, so
a failed run erases the output of a prior successful run. -/
theorem dest_wiped_first (fid : String) (cfg : Config) (server : Nat → NetResult)
    (hpre : cfg.destPre.isSome = true) :
    (∃ t, (ensureDataset fid cfg server).trace = Ev.removeDest :: t)
    ∧ ∀ e, (ensureDataset fid cfg server).result = Except.error e →
        (ensureDataset fid cfg server).dest = none := by
  simp only [ensureDataset, hpre, if_true]
  cases hO : downloadGdriveZip fid server with
  | mk res reqs er =>
    dsimp only
    cases res with
    | error e => exact ⟨⟨_, rfl⟩, fun _ _ => rfl⟩
    | ok saved =>
      cases saved with
      | none => cases er <;> exact ⟨⟨_, rfl⟩, fun _ _ => rfl⟩
      | some zf =>
        dsimp only
        rw [validate_after_ok er zf]
        by_cases hc : zf.entries.any (fun e => !e.crcOk) = true
        · have hres : (extractCsvs (some zf)).result
              = Except.error RunError.badZipExtract := by
            simp [extractCsvs, hc]
          rw [hres]
          exact ⟨⟨_, rfl⟩, fun _ _ => rfl⟩
        · rw [Bool.not_eq_true] at hc
          by_cases hn : (csvFiles zf.entries).isEmpty = true
          · have hres : (extractCsvs (some zf)).result
                = Except.error RunError.noCsvFound := by
              simp [extractCsvs, hc, hn]
            rw [hres]
            exact ⟨⟨_, rfl⟩, fun _ _ => rfl⟩
          · rw [Bool.not_eq_true] at hn
            have hres : (extractCsvs (some zf)).result
                = Except.ok ((csvFiles zf.entries).map entryName) := by
              simp [extractCsvs, hc, hn]
            rw [hres]
            exact ⟨⟨_, rfl⟩, fun e h => absurd h (by simp)⟩

/-- Witness for C10: with a pre-existing destination and a network
failure on the first request, the trace starts with the destination
removal and the failed run leaves no destination directory. -/
theorem dest_wiped_first_witness :
    (∃ t, (ensureDataset "f" ⟨some ["old.csv"], false, false⟩ failServer).trace
        = Ev.removeDest :: t)
    ∧ ∀ e, (ensureDataset "f" ⟨some ["old.csv"], false, false⟩ failServer).result
          = Except.error e →
        (ensureDataset "f" ⟨some ["old.csv"], false, false⟩ failServer).dest = none :=
  dest_wiped_first "f" ⟨some ["old.csv"], false, false⟩ failServer rfl

/-! ## Dict lemmas for the form branch -/

/-- The dict-replacement function preserves every pair's key. -/
theorem key_preserved (a b : String) (p : String × String) :
    (if p.1 == a then (a, b) else p).1 = p.1 := by
  by_cases h : (p.1 == a) = true
  · rw [if_pos h]
    exact (beq_iff_eq.mp h).symm
  · rw [if_neg h]

/-- Replacing a key's value in the dict leaves lookup success of every
key unchanged. -/
theorem isSome_dlookup_map_replace (d : List (String × String)) (a b k : String) :
    (dlookup (d.map (fun p => if p.1 == a then (a, b) else p)) k).isSome
      = (dlookup d k).isSome := by
  unfold dlookup
  rw [Option.isSome_map', Option.isSome_map', List.find?_map, Option.isSome_map']
  have hpred : ((fun p : String × String => p.1 == k)
        ∘ (fun p => if p.1 == a then (a, b) else p))
      = (fun p : String × String => p.1 == k) := by
    funext p
    simp only [Function.comp_apply, key_preserved]
  rw [hpred]

/-- One dict insertion makes lookup succeed exactly for the inserted key
and the keys already present. -/
theorem isSome_dlookup_dInsert (d : List (String × String)) (a b k : String) :
    (dlookup (dInsert d a b) k).isSome = ((dlookup d k).isSome || (a == k)) := by
  unfold dInsert
  by_cases h : d.any (fun p => p.1 == a) = true
  · rw [if_pos h, isSome_dlookup_map_replace]
    by_cases hak : (a == k) = true
    · have ha : a = k := beq_iff_eq.mp hak
      subst ha
      have : (dlookup d a).isSome = true := by
        unfold dlookup
        rw [Option.isSome_map']
        obtain ⟨p, hp, hpa⟩ := List.any_eq_true.mp h
        exact List.find?_isSome.mpr ⟨p, hp, hpa⟩
      simp [this]
    · simp [hak]
  · rw [if_neg h]
    unfold dlookup
    rw [List.find?_append, Option.isSome_map']
    cases hf : List.find? (fun p => p.1 == k) d with
    | some p => simp [Option.or, hf]
    | none =>
      simp only [hf, Option.none_or]
      by_cases hak : (a == k) = true
      · simp [List.find?_cons, hak]
      · simp [List.find?_cons, hak]

/-- Folding insertions: lookup succeeds exactly for the keys of the
accumulator and the keys of the inserted pairs. -/
theorem isSome_dlookup_foldl (l : List (String × String))
    (acc : List (String × String)) (k : String) :
    (dlookup (l.foldl (fun d p => dInsert d p.1 p.2) acc) k).isSome
      = ((dlookup acc k).isSome || l.any (fun p => p.1 == k)) := by
  induction l generalizing acc with
  | nil => simp
  | cons q t ih =>
    rw [List.foldl_cons, ih, isSome_dlookup_dInsert, List.any_cons]
    cases dlookup acc k |>.isSome <;> cases hq : (q.1 == k) <;> simp

/-- A `dictOf` lookup succeeds exactly for the keys of the pair list. -/
theorem isSome_dlookup_dictOf (l : List (String × String)) (k : String) :
    (dlookup (dictOf l) k).isSome = (l.map Prod.fst).contains k := by
  unfold dictOf
  rw [isSome_dlookup_foldl]
  have h0 : (dlookup [] k).isSome = false := rfl
  rw [h0, Bool.false_or]
  rw [Bool.eq_iff_iff, List.any_eq_true, List.contains_iff_exists_mem_beq]
  constructor
  · rintro ⟨p, hp, hbeq⟩
    exact ⟨p.1, List.mem_map_of_mem _ hp, by
      rw [beq_iff_eq] at hbeq ⊢
      exact hbeq.symm⟩
  · rintro ⟨x, hx, hbeq⟩
    obtain ⟨p, hp, rfl⟩ := List.mem_map.mp hx
    exact ⟨p, hp, by
      rw [beq_iff_eq] at hbeq ⊢
      exact hbeq.symm⟩

/-- `setdefault` adds exactly the defaulted key to the lookup-success
set. -/
theorem isSome_dlookup_setdefault (d : List (String × String)) (a b k : String) :
    (dlookup (setdefaultD d a b) k).isSome = ((dlookup d k).isSome || (a == k)) := by
  unfold setdefaultD
  by_cases h : d.any (fun p => p.1 == a) = true
  · rw [if_pos h]
    by_cases hak : (a == k) = true
    · have ha : a = k := beq_iff_eq.mp hak
      subst ha
      have : (dlookup d a).isSome = true := by
        unfold dlookup
        rw [Option.isSome_map']
        obtain ⟨p, hp, hpa⟩ := List.any_eq_true.mp h
        exact List.find?_isSome.mpr ⟨p, hp, hpa⟩
      simp [this]
    · simp [hak]
  · rw [if_neg h]
    unfold dlookup
    rw [List.find?_append, Option.isSome_map']
    cases hf : List.find? (fun p => p.1 == k) d with
    | some p => simp [Option.or, hf]
    | none =>
      simp only [hf, Option.none_or]
      by_cases hak : (a == k) = true
      · simp [List.find?_cons, hak]
      · simp [List.find?_cons, hak]

/-- A successful lookup after `setdefault` comes either from the
underlying dict or from the defaulted pair. -/
theorem dlookup_setdefault_eq_some (d : List (String × String)) (b k v : String)
    (h : dlookup (setdefaultD d "id" b) k = some v) :
    dlookup d k = some v ∨ (k = "id" ∧ dlookup d "id" = none ∧ v = b) := by
  unfold setdefaultD at h
  by_cases hany : d.any (fun p => p.1 == "id") = true
  · rw [if_pos hany] at h
    exact Or.inl h
  · rw [if_neg hany] at h
    unfold dlookup at h ⊢
    rw [List.find?_append] at h
    cases hf : List.find? (fun p => p.1 == k) d with
    | some p =>
      rw [hf] at h
      exact Or.inl h
    | none =>
      rw [hf] at h
      simp only [Option.none_or] at h
      by_cases hik : (("id" : String) == k) = true
      · have hik' : k = "id" := (beq_iff_eq.mp hik).symm
        subst hik'
        rw [List.find?_cons] at h
        simp only [hik] at h
        refine Or.inr ⟨rfl, ?_, ?_⟩
        · rw [hf]
          rfl
        · simpa using h.symm
      · rw [List.find?_cons] at h
        simp only at h
        rw [show (("id", b).1 == k) = false from Bool.not_eq_true _ |>.mp hik] at h
        simp at h

/-- The keys of the filtered parameter list are exactly the enumerated
keys whose lookup succeeds. -/
theorem map_fst_filterMap_lookup (ks : List String) (f : String → Option String) :
    (ks.filterMap (fun k => (f k).map (fun v => (k, v)))).map Prod.fst
      = ks.filter (fun k => (f k).isSome) := by
  induction ks with
  | nil => rfl
  | cons a t ih =>
    rw [List.filterMap_cons, List.filter_cons]
    cases h : f a with
    | none => simp [h, ih]
    | some w => simp [h, ih]

/-- Membership in the filtered parameter list certifies the lookup. -/
theorem lookup_of_mem_filterMap (ks : List String) (f : String → Option String)
    (k v : String)
    (h : (k, v) ∈ ks.filterMap (fun k => (f k).map (fun v => (k, v)))) :
    f k = some v := by
  induction ks with
  | nil => simp at h
  | cons a t ih =>
    rw [List.filterMap_cons] at h
    cases ha : f a with
    | none =>
      rw [ha] at h
      exact ih h
    | some w =>
      rw [ha] at h
      rcases List.mem_cons.mp h with h1 | h2
      · cases h1
        exact ha
      · exact ih h2

/-- The parameter list always carries the `id` key, so it is nonempty. -/
theorem formParams_not_empty (inputs : List (String × String)) (fid : String) :
    (formParams inputs fid).isEmpty = false := by
  unfold formParams recognizedKeys
  have h : (dlookup (setdefaultD (dictOf inputs) "id" fid) "id").isSome = true := by
    rw [isSome_dlookup_setdefault]
    simp
  obtain ⟨v, hv⟩ := Option.isSome_iff_exists.mp h
  rw [List.filterMap_cons, hv]
  rfl

/-- Claim C7: on a page where the form search finds an action whose
normalized URL begins with `http`, the extractor returns that action URL
plus a query string whose keys are exactly the recognized parameter
names (`id`, `export`, `confirm`, `uuid`, in this fixed order) present
among the page's input name/value pairs — with `id` counted as always
present — and whose values come from the page's inputs (last occurrence
wins), except that `id` takes the supplied resource identifier when the
inputs omit it. -/
theorem form_extraction (s fid : String) (actionRaw : List Char)
    (inputs : List (String × String))
    (hform : searchFormAction s.data = some actionRaw)
    (hin : findInputs s = inputs)
    (hhttp : strStartsWith "http" (String.mk (replaceAmpAux actionRaw)) = true) :
    ∃ ps : List (String × String),
      extractDownloadUrlFromHtml s fid
        = some (String.mk (replaceAmpAux actionRaw) ++ "?" ++ urlencode ps)
      ∧ ps.map Prod.fst
          = recognizedKeys.filter
              (fun k => k == "id" || (inputs.map Prod.fst).contains k)
      ∧ ∀ k v, (k, v) ∈ ps →
          dlookup (dictOf inputs) k = some v
          ∨ (k = "id" ∧ dlookup (dictOf inputs) "id" = none ∧ v = fid) := by
  refine ⟨formParams inputs fid, ?_, ?_, ?_⟩
  · unfold extractDownloadUrlFromHtml
    rw [hform, hin]
    simp [formParams_not_empty, hhttp]
  · unfold formParams
    rw [map_fst_filterMap_lookup recognizedKeys
      (dlookup (setdefaultD (dictOf inputs) "id" fid))]
    refine List.filter_congr ?_
    intro k _
    rw [isSome_dlookup_setdefault, isSome_dlookup_dictOf]
    cases hik : (("id" : String) == k) with
    | true =>
      have : (k == "id") = true := by
        rw [beq_iff_eq]
        exact (beq_iff_eq.mp hik).symm
      simp [this]
    | false =>
      have : (k == "id") = false := by
        rcases Bool.eq_false_iff.mp hik with _
        by_contra hc
        rw [Bool.not_eq_false] at hc
        rw [show (("id" : String) == k) = true from
          beq_iff_eq.mpr (beq_iff_eq.mp hc).symm] at hik
        exact Bool.true_eq_false.mp hik
      simp [this]
  · intro k v hmem
    unfold formParams at hmem
    exact dlookup_setdefault_eq_some (dictOf inputs) fid k v
      (lookup_of_mem_filterMap recognizedKeys
        (dlookup (setdefaultD (dictOf inputs) "id" fid)) k v hmem)

/-- Witness for C7: on `formPage` (absolute action `https://d/x`, one
`confirm` input) with resource id `FID`, the extractor returns the
action URL with query `id=FID&confirm=t` — exactly the recognized
parameters present, with `id` defaulted. -/
theorem form_extraction_witness :
    (∃ ps : List (String × String),
      extractDownloadUrlFromHtml formPage "FID"
        = some (String.mk (replaceAmpAux "https://d/x".data) ++ "?" ++ urlencode ps)
      ∧ ps.map Prod.fst
          = recognizedKeys.filter
              (fun k => k == "id"
                || (([("confirm", "t")] : List (String × String)).map Prod.fst).contains k)
      ∧ ∀ k v, (k, v) ∈ ps →
          dlookup (dictOf [("confirm", "t")]) k = some v
          ∨ (k = "id" ∧ dlookup (dictOf [("confirm", "t")]) "id" = none ∧ v = "FID"))
    ∧ extractDownloadUrlFromHtml formPage "FID"
        = some "https://d/x?id=FID&confirm=t" :=
  ⟨form_extraction formPage "FID" "https://d/x".data [("confirm", "t")] rfl rfl rfl,
   rfl⟩

end GDD
